import Mathlib

/-!
Shallow embedding of `packages/sol-tracing-utils/src/source_maps.ts`.

`getLocationByOffset` builds, for one source text, the table from byte
offset to line/column position.  `parseSourceMap` decodes a Solidity
source-map string into a table from program counter to source range.

Modelling choices, all taken from the source:
* JavaScript objects keyed by numbers are association lists; a JS value
  that may be `undefined` is an `Option`.
* The external collaborator `getPcToInstructionIndexMapping` (imported
  from `./instructions`, outside this file) is passed in as its finished
  program-counter to instruction-index mapping; the decoder only reads it.
* JS `parseInt(s, 10)` is `jsParseInt`, with `none` standing for `NaN`.
* A thrown `Error` is `Except.error` carrying the message string.
* JS `split` with a one-character separator is `splitOnSep` on the
  character list of the string.
-/

/-- Line/column pair stored in the offset table. -/
structure LineColumn where
  line : Nat
  column : Nat
deriving DecidableEq

/-- The TS `LocationByOffset`: offset-keyed table of positions. -/
abbrev LocationByOffset := List (Nat × LineColumn)

/-- One step of the scan in `getLocationByOffset` (source_maps.ts lines
23-27): a newline bumps the line and resets the column. -/
def scanStep (location : LineColumn) (char : Char) : LineColumn :=
  if char = '\n' then { line := location.line + 1, column := 0 }
  else { line := location.line, column := location.column + 1 }

/-- The loop of `getLocationByOffset`: each character read at offset `o`
records the post-state at key `o + 1`. -/
def getLocationByOffsetAux : List Char → Nat → LineColumn → LocationByOffset
  | [], _, _ => []
  | char :: rest, currentOffset, location =>
    (currentOffset + 1, scanStep location char) ::
      getLocationByOffsetAux rest (currentOffset + 1) (scanStep location char)

/-- TS `getLocationByOffset` (source_maps.ts lines 18-31). -/
def getLocationByOffset (str : String) : LocationByOffset :=
  (0, { line := 1, column := 0 }) :: getLocationByOffsetAux str.data 0 { line := 1, column := 0 }

/-- JS object property read `obj[key]` for a number-keyed table. -/
def lookupTable {α β : Type} [DecidableEq α] : List (α × β) → α → Option β
  | [], _ => none
  | (k, v) :: rest, key => if key = k then some v else lookupTable rest key

/-- Offset-table read with a possibly negative `Int` key. -/
def lookupOffset : LocationByOffset → Int → Option LineColumn
  | [], _ => none
  | (k, loc) :: rest, key => if (k : Int) = key then some loc else lookupOffset rest key

/-- JS `String.prototype.split` with a one-character separator; the empty
string splits to one empty field. -/
def splitOnSep (sep : Char) : List Char → List (List Char)
  | [] => [[]]
  | c :: cs =>
    if c = sep then [] :: splitOnSep sep cs
    else
      match splitOnSep sep cs with
      | [] => [[c]]
      | field :: rest => (c :: field) :: rest

/-- Whitespace skipped by JS `parseInt`. -/
def isJsWhitespace (c : Char) : Bool :=
  c = ' ' || c = '\t' || c = '\n' || c = '\r' || c = '\x0b' || c = '\x0c' ||
    c = ' ' || c = '﻿'

/-- Value of the run of leading decimal digits; `none` when no digit leads. -/
def leadingDigitsValue (cs : List Char) : Option Nat :=
  match cs.takeWhile Char.isDigit with
  | [] => none
  | ds => some (ds.foldl (fun a c => a * 10 + (c.toNat - 48)) 0)

/-- JS `parseInt(s, 10)`: skip whitespace, take an optional sign, then the
longest run of digits; no digit at all gives `NaN`, modelled as `none`. -/
def jsParseInt (cs : List Char) : Option Int :=
  match cs.dropWhile isJsWhitespace with
  | '-' :: rest => (leadingDigitsValue rest).map (fun n => -(n : Int))
  | '+' :: rest => (leadingDigitsValue rest).map (fun n => (n : Int))
  | other => (leadingDigitsValue other).map (fun n => (n : Int))

/-- `parseInt` applied to a field that may be missing after the split
(destructuring a short array yields `undefined`, whose `parseInt` is `NaN`). -/
def jsParseIntField : Option (List Char) → Option Int
  | none => none
  | some cs => jsParseInt cs

/-- TS `SourceLocation`; at run time each field may be `undefined`, since
`lastParsedEntry` starts out as the empty object (line 54). -/
structure SourceLocation where
  offset : Option Int
  length : Option Int
  fileIndex : Option Int
deriving DecidableEq

/-- JS `_.isNaN(x) ? lastParsedEntry.f : x` (source_maps.ts lines 64-66). -/
def inheritField (parsed : Option Int) (prev : Option Int) : Option Int :=
  match parsed with
  | some v => some v
  | none => prev

/-- Delta resolution of one raw entry against the previous resolved entry
(source_maps.ts lines 56-71). -/
def resolveEntry (lastParsedEntry : SourceLocation) (entry : List Char) : SourceLocation :=
  { offset := inheritField (jsParseIntField (splitOnSep ':' entry)[0]?) lastParsedEntry.offset,
    length := inheritField (jsParseIntField (splitOnSep ':' entry)[1]?) lastParsedEntry.length,
    fileIndex := inheritField (jsParseIntField (splitOnSep ':' entry)[2]?) lastParsedEntry.fileIndex }

/-- The sequence of resolved entries produced by the fold over the raw
entries; the position in this list is the instruction index. -/
def resolvedSeq : List (List Char) → SourceLocation → List SourceLocation
  | [], _ => []
  | e :: rest, lastParsedEntry =>
    resolveEntry lastParsedEntry e :: resolvedSeq rest (resolveEntry lastParsedEntry e)

/-- TS `SourceRange` with `location.start` and `location.end` flattened;
the file name read from `sources[fileIndex]` may be `undefined`. -/
structure SourceRange where
  startLoc : LineColumn
  endLoc : LineColumn
  fileName : Option String
deriving DecidableEq

/-- Offset tables per file index (source_maps.ts lines 49-52): a key that
is present with an `undefined` source text gets the empty table. -/
def buildOffsetTables (sourceCodes : List (Int × Option String)) :
    List (Int × LocationByOffset) :=
  sourceCodes.map (fun p =>
    (p.1, match p.2 with
          | none => []
          | some sourceCode => getLocationByOffset sourceCode))

/-- `locationByOffsetByFileIndex[parsedEntry.fileIndex]`; an unset file
index reads as an absent key. -/
def tableFor (tables : List (Int × LocationByOffset)) : Option Int → Option LocationByOffset
  | none => none
  | some fi => lookupTable tables fi

/-- Offset-table read keyed by a possibly unset offset. -/
def lookupOffsetKey (tbl : LocationByOffset) : Option Int → Option LineColumn
  | none => none
  | some k => lookupOffset tbl k

/-- `parsedEntry.offset + parsedEntry.length` (line 77): JS addition with
an `undefined` operand yields `NaN`, which misses every key. -/
def endOffsetKey (parsedEntry : SourceLocation) : Option Int :=
  match parsedEntry.offset, parsedEntry.length with
  | some o, some l => some (o + l)
  | _, _ => none

/-- `sources[parsedEntry.fileIndex]` (line 79). -/
def fileNameFor (sources : List (Int × String)) : Option Int → Option String
  | none => none
  | some fi => lookupTable sources fi

/-- JS template-literal rendering of a possibly `undefined` file name. -/
def showFileName : Option String → String
  | some n => n
  | none => "undefined"

/-- The message thrown at source_maps.ts line 82. -/
def rangeErrorMessage (sources : List (Int × String)) (parsedEntry : SourceLocation) : String :=
  "Error while processing sourcemap: location out of range in " ++
    showFileName (fileNameFor sources parsedEntry.fileIndex)

/-- The `_.each` loop of source_maps.ts lines 56-90: builds the
instruction-index to source-range table, entry `i` keyed by its position,
or propagates the thrown error. -/
def processEntries (tables : List (Int × LocationByOffset)) (sources : List (Int × String)) :
    List (List Char) → Nat → SourceLocation → Except String (List (Nat × SourceRange))
  | [], _, _ => .ok []
  | e :: rest, i, lastParsedEntry =>
    let parsedEntry := resolveEntry lastParsedEntry e
    if parsedEntry.fileIndex = some (-1) then
      processEntries tables sources rest (i + 1) parsedEntry
    else
      match tableFor tables parsedEntry.fileIndex with
      | none => processEntries tables sources rest (i + 1) parsedEntry
      | some locationByOffset =>
        match lookupOffsetKey locationByOffset parsedEntry.offset,
              lookupOffsetKey locationByOffset (endOffsetKey parsedEntry) with
        | some startLoc, some endLoc =>
          match processEntries tables sources rest (i + 1) parsedEntry with
          | .ok acc =>
            .ok ((i, ⟨startLoc, endLoc, fileNameFor sources parsedEntry.fileIndex⟩) :: acc)
          | .error msg => .error msg
        | _, _ => .error (rangeErrorMessage sources parsedEntry)

/-- `let lastParsedEntry: SourceLocation = \x7b\x7d as any` (line 54). -/
def initialEntry : SourceLocation := { offset := none, length := none, fileIndex := none }

/-- The instruction-index to source-range table of one decode call. -/
def instructionIndexTable (sourceCodes : List (Int × Option String)) (srcMap : String)
    (sources : List (Int × String)) : Except String (List (Nat × SourceRange)) :=
  processEntries (buildOffsetTables sourceCodes) sources (splitOnSep ';' srcMap.data) 0 initialEntry

/-- TS `parseSourceMap` (source_maps.ts lines 41-98).  The external
pc-to-instruction-index collaborator's result is passed in directly.
Assigning an `undefined` table value under a pc key (line 95) still
creates the key, so every pc of the external mapping appears in the
output, with an `Option` value. -/
def parseSourceMap (sourceCodes : List (Int × Option String)) (srcMap : String)
    (pcToInstructionIndex : List (Nat × Nat)) (sources : List (Int × String)) :
    Except String (List (Nat × Option SourceRange)) :=
  match instructionIndexTable sourceCodes srcMap sources with
  | .error msg => .error msg
  | .ok tbl => .ok (pcToInstructionIndex.map (fun p => (p.1, lookupTable tbl p.2)))

/-- The fatal condition of lines 72-83: file index not the sentinel `-1`,
its offset table present, and the start or the end offset missing from it. -/
def isBad (tables : List (Int × LocationByOffset)) (parsedEntry : SourceLocation) : Bool :=
  decide (parsedEntry.fileIndex ≠ some (-1)) &&
    match tableFor tables parsedEntry.fileIndex with
    | none => false
    | some locationByOffset =>
      (lookupOffsetKey locationByOffset parsedEntry.offset).isNone ||
        (lookupOffsetKey locationByOffset (endOffsetKey parsedEntry)).isNone

/-- The silent-skip condition of lines 72 and 85-88: sentinel file index
or no offset table for the file index. -/
def isUnmapped (tables : List (Int × LocationByOffset)) (parsedEntry : SourceLocation) : Bool :=
  decide (parsedEntry.fileIndex = some (-1)) || (tableFor tables parsedEntry.fileIndex).isNone

/-- First resolved entry that raises the fatal condition, if any. -/
def firstBad (tables : List (Int × LocationByOffset)) :
    List (List Char) → SourceLocation → Option SourceLocation
  | [], _ => none
  | e :: rest, lastParsedEntry =>
    if isBad tables (resolveEntry lastParsedEntry e) then some (resolveEntry lastParsedEntry e)
    else firstBad tables rest (resolveEntry lastParsedEntry e)

/-- The three numeric raw fields of one entry; the fourth (jump type) and
any later fields are never read by the decoder. -/
def firstThreeFields (e : List Char) :
    Option (List Char) × Option (List Char) × Option (List Char) :=
  ((splitOnSep ':' e)[0]?, (splitOnSep ':' e)[1]?, (splitOnSep ':' e)[2]?)

/-- Position reached after scanning a character list from the start state
`{line := 1, column := 0}`. -/
def scanPos (cs : List Char) : LineColumn := cs.foldl scanStep { line := 1, column := 0 }

/-- Insertion of one character at position `p` of a string. -/
def insertCharAt (s : String) (p : Nat) (c : Char) : String :=
  String.mk (s.data.take p ++ c :: s.data.drop p)

/-! ## General lemmas about the embedded definitions -/

theorem getLocationByOffsetAux_keys :
    ∀ (cs : List Char) (off : Nat) (loc : LineColumn),
      (getLocationByOffsetAux cs off loc).map Prod.fst = List.range' (off + 1) cs.length := by
  intro cs
  induction cs with
  | nil => intro off loc; rfl
  | cons c rest ih =>
    intro off loc
    simp only [getLocationByOffsetAux, List.map_cons, List.length_cons, List.range'_succ]
    rw [ih]

theorem keys_ge_of_processEntries_ok (tables : List (Int × LocationByOffset))
    (sources : List (Int × String)) :
    ∀ (es : List (List Char)) (i : Nat) (lastParsedEntry : SourceLocation)
      (tbl : List (Nat × SourceRange)),
      processEntries tables sources es i lastParsedEntry = .ok tbl →
      ∀ k ∈ tbl.map Prod.fst, i ≤ k := by
  intro es
  induction es with
  | nil =>
    intro i lastParsedEntry tbl h k hk
    simp only [processEntries] at h
    cases h
    simp at hk
  | cons e rest ih =>
    intro i lastParsedEntry tbl h k hk
    simp only [processEntries] at h
    split at h
    · exact Nat.le_of_succ_le (ih (i + 1) _ tbl h k hk)
    · split at h
      · exact Nat.le_of_succ_le (ih (i + 1) _ tbl h k hk)
      · split at h
        · split at h
          · cases h
            simp only [List.map_cons, List.mem_cons] at hk
            rcases hk with hk | hk
            · omega
            · exact Nat.le_of_succ_le (ih (i + 1) _ _ ‹_› k hk)
          · cases h
        · cases h

theorem processEntries_error_of_firstBad (tables : List (Int × LocationByOffset))
    (sources : List (Int × String)) :
    ∀ (es : List (List Char)) (lastParsedEntry pe : SourceLocation) (i : Nat),
      firstBad tables es lastParsedEntry = some pe →
      processEntries tables sources es i lastParsedEntry =
        .error (rangeErrorMessage sources pe) := by
  intro es
  induction es with
  | nil => intro lastParsedEntry pe i h; simp [firstBad] at h
  | cons e rest ih =>
    intro lastParsedEntry pe i h
    simp only [firstBad] at h
    split at h
    · cases h
      rename_i hbad
      simp only [isBad, Bool.and_eq_true, decide_eq_true_eq] at hbad
      obtain ⟨hfi, htab⟩ := hbad
      simp only [processEntries]
      rw [if_neg hfi]
      cases htf : tableFor tables (resolveEntry lastParsedEntry e).fileIndex with
      | none => rw [htf] at htab; simp at htab
      | some locationByOffset =>
        rw [htf] at htab
        simp only [Bool.or_eq_true, Option.isNone_iff_eq_none] at htab
        dsimp only
        rcases htab with hs | hs
        · rw [hs]
        · rw [hs]
          cases lookupOffsetKey locationByOffset (resolveEntry lastParsedEntry e).offset <;> rfl
    · rename_i hgood
      rw [Bool.not_eq_true] at hgood
      have hrec := ih (resolveEntry lastParsedEntry e) pe (i + 1) h
      simp only [processEntries]
      split
      · exact hrec
      · rename_i hfi
        cases htf : tableFor tables (resolveEntry lastParsedEntry e).fileIndex with
        | none => exact hrec
        | some locationByOffset =>
          unfold isBad at hgood
          rw [htf] at hgood
          simp only [Bool.and_eq_false_iff, decide_eq_false_iff_not, not_not,
            Bool.or_eq_false_iff, Option.isNone_eq_false_iff,
            Option.isSome_iff_exists] at hgood
          rcases hgood with hgood | hgood
          · exact absurd hgood hfi
          · obtain ⟨⟨startLoc, hs⟩, ⟨endLoc, hen⟩⟩ := hgood
            dsimp only
            rw [hs, hen, hrec]

theorem firstBad_isSome_of_mem_bad (tables : List (Int × LocationByOffset)) :
    ∀ (es : List (List Char)) (lastParsedEntry pe : SourceLocation),
      pe ∈ resolvedSeq es lastParsedEntry → isBad tables pe = true →
      ∃ pe', firstBad tables es lastParsedEntry = some pe' ∧
        pe' ∈ resolvedSeq es lastParsedEntry ∧ isBad tables pe' = true := by
  intro es
  induction es with
  | nil => intro lastParsedEntry pe hmem _; simp [resolvedSeq] at hmem
  | cons e rest ih =>
    intro lastParsedEntry pe hmem hbad
    by_cases hb0 : isBad tables (resolveEntry lastParsedEntry e) = true
    · exact ⟨resolveEntry lastParsedEntry e, by simp [firstBad, hb0],
        by simp [resolvedSeq], hb0⟩
    · simp only [resolvedSeq, List.mem_cons] at hmem
      rcases hmem with hmem | hmem
      · exact absurd (hmem ▸ hbad) hb0
      · obtain ⟨pe', hfb, hmem', hbad'⟩ := ih (resolveEntry lastParsedEntry e) pe hmem hbad
        exact ⟨pe', by simp [firstBad, hb0, hfb], by simp [resolvedSeq, hmem'], hbad'⟩

theorem bad_of_processEntries_error (tables : List (Int × LocationByOffset))
    (sources : List (Int × String)) :
    ∀ (es : List (List Char)) (i : Nat) (lastParsedEntry : SourceLocation) (msg : String),
      processEntries tables sources es i lastParsedEntry = .error msg →
      ∃ pe, pe ∈ resolvedSeq es lastParsedEntry ∧ isBad tables pe = true := by
  intro es
  induction es with
  | nil => intro i lastParsedEntry msg h; simp [processEntries] at h
  | cons e rest ih =>
    intro i lastParsedEntry msg h
    simp only [processEntries] at h
    split at h
    · obtain ⟨pe, hmem, hbad⟩ := ih (i + 1) _ msg h
      exact ⟨pe, by simp [resolvedSeq, hmem], hbad⟩
    · rename_i hfi
      split at h
      · obtain ⟨pe, hmem, hbad⟩ := ih (i + 1) _ msg h
        exact ⟨pe, by simp [resolvedSeq, hmem], hbad⟩
      · rename_i locationByOffset htf
        split at h
        · split at h
          · cases h
          · rename_i msg' hrec
            obtain ⟨pe, hmem, hbad⟩ := ih (i + 1) _ msg' hrec
            exact ⟨pe, by simp [resolvedSeq, hmem], hbad⟩
        · rename_i hnotboth
          refine ⟨resolveEntry lastParsedEntry e, by simp [resolvedSeq], ?_⟩
          unfold isBad
          rw [htf]
          simp only [Bool.and_eq_true, decide_eq_true_eq, Bool.or_eq_true,
            Option.isNone_iff_eq_none]
          refine ⟨hfi, ?_⟩
          cases hs : lookupOffsetKey locationByOffset (resolveEntry lastParsedEntry e).offset with
          | none => exact Or.inl rfl
          | some startLoc =>
            cases hen : lookupOffsetKey locationByOffset
                (endOffsetKey (resolveEntry lastParsedEntry e)) with
            | none => exact Or.inr rfl
            | some endLoc => exact (hnotboth startLoc endLoc hs hen).elim

theorem isBad_eq_false_of_isUnmapped (tables : List (Int × LocationByOffset))
    (pe : SourceLocation) (h : isUnmapped tables pe = true) : isBad tables pe = false := by
  unfold isUnmapped at h
  unfold isBad
  simp only [Bool.or_eq_true, decide_eq_true_eq, Option.isNone_iff_eq_none] at h
  rcases h with h | h
  · simp [h]
  · rw [h]
    simp

theorem key_absent_of_unmapped (tables : List (Int × LocationByOffset))
    (sources : List (Int × String)) :
    ∀ (es : List (List Char)) (lastParsedEntry : SourceLocation) (i j : Nat)
      (pe : SourceLocation) (tbl : List (Nat × SourceRange)),
      (resolvedSeq es lastParsedEntry)[j]? = some pe →
      isUnmapped tables pe = true →
      processEntries tables sources es i lastParsedEntry = .ok tbl →
      (i + j) ∉ tbl.map Prod.fst := by
  intro es
  induction es with
  | nil => intro lastParsedEntry i j pe tbl hj _ _; simp [resolvedSeq] at hj
  | cons e rest ih =>
    intro lastParsedEntry i j pe tbl hj hu h
    cases j with
    | zero =>
      simp only [resolvedSeq, List.getElem?_cons_zero, Option.some.injEq] at hj
      subst hj
      unfold isUnmapped at hu
      simp only [Bool.or_eq_true, decide_eq_true_eq, Option.isNone_iff_eq_none] at hu
      have hskip : processEntries tables sources (e :: rest) i lastParsedEntry =
          processEntries tables sources rest (i + 1) (resolveEntry lastParsedEntry e) := by
        simp only [processEntries]
        rcases hu with hu | hu
        · rw [if_pos hu]
        · rw [hu]
          split
          · rfl
          · rfl
      rw [hskip] at h
      intro hk
      have := keys_ge_of_processEntries_ok tables sources rest (i + 1) _ tbl h _ hk
      omega
    | succ j' =>
      simp only [resolvedSeq, List.getElem?_cons_succ] at hj
      simp only [processEntries] at h
      have hstep : i + (j' + 1) = (i + 1) + j' := by omega
      split at h
      · rw [hstep]; exact ih _ (i + 1) j' pe tbl hj hu h
      · split at h
        · rw [hstep]; exact ih _ (i + 1) j' pe tbl hj hu h
        · split at h
          · split at h
            · rename_i acc hrec
              cases h
              simp only [List.map_cons, List.mem_cons]
              intro hk
              rcases hk with hk | hk
              · omega
              · exact (hstep ▸ ih _ (i + 1) j' pe acc hj hu hrec) (hstep ▸ hk)
            · cases h
          · cases h

theorem lookupTable_buildOffsetTables (sourceCodes : List (Int × Option String)) (fi : Int) :
    lookupTable (buildOffsetTables sourceCodes) fi =
      (lookupTable sourceCodes fi).map
        (fun v => match v with
                  | none => []
                  | some sourceCode => getLocationByOffset sourceCode) := by
  induction sourceCodes with
  | nil => rfl
  | cons p rest ih =>
    simp only [buildOffsetTables, List.map_cons] at *
    simp only [lookupTable]
    split
    · rfl
    · exact ih

theorem foldl_scanStep_line :
    ∀ (cs : List Char) (loc : LineColumn),
      (cs.foldl scanStep loc).line = loc.line + cs.count '\n' := by
  intro cs
  induction cs with
  | nil => intro loc; simp
  | cons c rest ih =>
    intro loc
    simp only [List.foldl_cons, ih, List.count_cons]
    by_cases hc : c = '\n'
    · subst hc; simp [scanStep]; omega
    · simp [scanStep, hc]

theorem foldl_scanStep_newline_column (cs : List Char) (loc : LineColumn) :
    ((cs ++ ['\n']).foldl scanStep loc).column = 0 := by
  rw [List.foldl_append]
  simp [scanStep]

theorem lookupOffset_getLocationByOffsetAux :
    ∀ (cs : List Char) (off : Nat) (loc : LineColumn) (j : Nat),
      1 ≤ j → j ≤ cs.length →
      lookupOffset (getLocationByOffsetAux cs off loc) (off + j) =
        some ((cs.take j).foldl scanStep loc) := by
  intro cs
  induction cs with
  | nil => intro off loc j h1 h2; simp at h2; omega
  | cons c rest ih =>
    intro off loc j h1 h2
    cases j with
    | zero => omega
    | succ j' =>
      cases j' with
      | zero =>
        simp only [getLocationByOffsetAux, lookupOffset, List.take_succ_cons, List.take_zero,
          List.foldl_cons, List.foldl_nil]
        have hkey : ((off + 1 : Nat) : Int) = (off : Int) + ((0 + 1 : Nat) : Int) := by
          push_cast; ring
        rw [if_pos hkey]
      | succ j'' =>
        simp only [getLocationByOffsetAux, lookupOffset, List.take_succ_cons, List.foldl_cons]
        rw [if_neg (by push_cast; omega)]
        have hlen : j'' + 1 ≤ rest.length := by simpa using h2
        have := ih (off + 1) (scanStep loc c) (j'' + 1) (by omega) hlen
        rw [show ((off : Int) + ((j'' + 1 + 1 : Nat) : Int)) =
          ((off + 1 : Nat) : Int) + ((j'' + 1 : Nat) : Int) by push_cast; ring]
        exact this

theorem lookupOffset_getLocationByOffset (s : String) (o : Nat) (ho : o ≤ s.data.length) :
    lookupOffset (getLocationByOffset s) o = some (scanPos (s.data.take o)) := by
  rcases Nat.eq_zero_or_pos o with h0 | hpos
  · subst h0
    simp [getLocationByOffset, lookupOffset, scanPos]
  · unfold getLocationByOffset lookupOffset
    rw [if_neg (by push_cast; omega)]
    have := lookupOffset_getLocationByOffsetAux s.data 0 { line := 1, column := 0 } o hpos ho
    simpa [scanPos] using this

/-! ## Jump-type independence machinery -/

/-- Pointwise agreement of the three numeric raw fields of two entry lists. -/
def sameNumericFields : List (List Char) → List (List Char) → Bool
  | [], [] => true
  | e1 :: r1, e2 :: r2 =>
    decide (firstThreeFields e1 = firstThreeFields e2) && sameNumericFields r1 r2
  | _, _ => false

theorem resolveEntry_congr (lastParsedEntry : SourceLocation) (e1 e2 : List Char)
    (h : firstThreeFields e1 = firstThreeFields e2) :
    resolveEntry lastParsedEntry e1 = resolveEntry lastParsedEntry e2 := by
  simp only [firstThreeFields, Prod.mk.injEq] at h
  obtain ⟨h0, h1, h2⟩ := h
  simp only [resolveEntry, h0, h1, h2]

theorem processEntries_congr (tables : List (Int × LocationByOffset))
    (sources : List (Int × String)) :
    ∀ (es1 es2 : List (List Char)) (i : Nat) (lastParsedEntry : SourceLocation),
      sameNumericFields es1 es2 = true →
      processEntries tables sources es1 i lastParsedEntry =
        processEntries tables sources es2 i lastParsedEntry := by
  intro es1
  induction es1 with
  | nil =>
    intro es2 i lastParsedEntry h
    cases es2 with
    | nil => rfl
    | cons e r => simp [sameNumericFields] at h
  | cons e1 r1 ih =>
    intro es2 i lastParsedEntry h
    cases es2 with
    | nil => simp [sameNumericFields] at h
    | cons e2 r2 =>
      simp only [sameNumericFields, Bool.and_eq_true, decide_eq_true_eq] at h
      simp only [processEntries, resolveEntry_congr lastParsedEntry e1 e2 h.1,
        ih r2 (i + 1) (resolveEntry lastParsedEntry e2) h.2]

/-! ## Claim theorems -/

/-- C1: whenever some resolved entry has a file index whose offset table is
present while its start offset or its end offset (offset + length) misses
that table, the whole decode fails: `parseSourceMap` returns the thrown
range error, whose message contains the offending file's name, and no
partial table is returned. -/
theorem out_of_range_fails_decode (sourceCodes : List (Int × Option String)) (srcMap : String)
    (sources : List (Int × String)) (pe : SourceLocation)
    (hmem : pe ∈ resolvedSeq (splitOnSep ';' srcMap.data) initialEntry)
    (hbad : isBad (buildOffsetTables sourceCodes) pe = true) :
    ∃ pe', pe' ∈ resolvedSeq (splitOnSep ';' srcMap.data) initialEntry ∧
      isBad (buildOffsetTables sourceCodes) pe' = true ∧
      instructionIndexTable sourceCodes srcMap sources =
        .error (rangeErrorMessage sources pe') ∧
      (∀ pcs : List (Nat × Nat),
        parseSourceMap sourceCodes srcMap pcs sources =
          .error (rangeErrorMessage sources pe')) ∧
      ∃ pre : String, rangeErrorMessage sources pe' =
        pre ++ showFileName (fileNameFor sources pe'.fileIndex) := by
  obtain ⟨pe', hfb, hmem', hbad'⟩ := firstBad_isSome_of_mem_bad (buildOffsetTables sourceCodes)
    (splitOnSep ';' srcMap.data) initialEntry pe hmem hbad
  have herr : instructionIndexTable sourceCodes srcMap sources =
      .error (rangeErrorMessage sources pe') :=
    processEntries_error_of_firstBad _ _ _ _ _ 0 hfb
  refine ⟨pe', hmem', hbad', herr, ?_, ⟨_, rfl⟩⟩
  intro pcs
  unfold parseSourceMap
  rw [herr]

theorem out_of_range_fails_decode_witness :
    ∃ pe', pe' ∈ resolvedSeq (splitOnSep ';' "0:10:0:-".data) initialEntry ∧
      isBad (buildOffsetTables [(0, some "abc")]) pe' = true ∧
      instructionIndexTable [(0, some "abc")] "0:10:0:-" [(0, "C.sol")] =
        .error (rangeErrorMessage [(0, "C.sol")] pe') ∧
      (∀ pcs : List (Nat × Nat),
        parseSourceMap [(0, some "abc")] "0:10:0:-" pcs [(0, "C.sol")] =
          .error (rangeErrorMessage [(0, "C.sol")] pe')) ∧
      ∃ pre : String, rangeErrorMessage [(0, "C.sol")] pe' =
        pre ++ showFileName (fileNameFor [(0, "C.sol")] pe'.fileIndex) :=
  out_of_range_fails_decode [(0, some "abc")] "0:10:0:-" [(0, "C.sol")]
    { offset := some 0, length := some 10, fileIndex := some 0 } (by decide) (by decide)

/-- C2: an entry resolving to file index `-1`, or to a file index with no
offset table, never appears as a key of the instruction-index table, raises
no error itself (any decode error stems from an entry satisfying the fatal
condition, which an unmapped entry never does), and decoding of the other
entries proceeds. -/
theorem unmapped_entry_silently_skipped (sourceCodes : List (Int × Option String))
    (srcMap : String) (sources : List (Int × String)) (j : Nat) (pe : SourceLocation)
    (hj : (resolvedSeq (splitOnSep ';' srcMap.data) initialEntry)[j]? = some pe)
    (hu : isUnmapped (buildOffsetTables sourceCodes) pe = true) :
    (∀ tbl, instructionIndexTable sourceCodes srcMap sources = .ok tbl →
      j ∉ tbl.map Prod.fst) ∧
    isBad (buildOffsetTables sourceCodes) pe = false ∧
    (∀ msg, instructionIndexTable sourceCodes srcMap sources = .error msg →
      ∃ pe', pe' ∈ resolvedSeq (splitOnSep ';' srcMap.data) initialEntry ∧
        isBad (buildOffsetTables sourceCodes) pe' = true) := by
  refine ⟨?_, isBad_eq_false_of_isUnmapped _ _ hu, ?_⟩
  · intro tbl h
    have := key_absent_of_unmapped (buildOffsetTables sourceCodes) sources
      (splitOnSep ';' srcMap.data) initialEntry 0 j pe tbl hj hu h
    simpa using this
  · intro msg h
    exact bad_of_processEntries_error _ _ _ 0 _ msg h

theorem unmapped_entry_silently_skipped_witness :
    (∀ tbl, instructionIndexTable [(0, some "ab")] "0:1:-1:-" [(0, "a.sol")] = .ok tbl →
      0 ∉ tbl.map Prod.fst) ∧
    isBad (buildOffsetTables [(0, some "ab")])
      { offset := some 0, length := some 1, fileIndex := some (-1) } = false ∧
    (∀ msg, instructionIndexTable [(0, some "ab")] "0:1:-1:-" [(0, "a.sol")] = .error msg →
      ∃ pe', pe' ∈ resolvedSeq (splitOnSep ';' "0:1:-1:-".data) initialEntry ∧
        isBad (buildOffsetTables [(0, some "ab")]) pe' = true) :=
  unmapped_entry_silently_skipped [(0, some "ab")] "0:1:-1:-" [(0, "a.sol")] 0
    { offset := some 0, length := some 1, fileIndex := some (-1) } (by decide) (by decide)

/-- C3: on every successful decode the keys of the returned table are
exactly the program counters of the external pc-to-instruction-index
mapping, in order: no counter is dropped and none is invented. -/
theorem output_keys_match_pc_mapping (sourceCodes : List (Int × Option String))
    (srcMap : String) (pcs : List (Nat × Nat)) (sources : List (Int × String))
    (out : List (Nat × Option SourceRange))
    (h : parseSourceMap sourceCodes srcMap pcs sources = .ok out) :
    out.map Prod.fst = pcs.map Prod.fst := by
  unfold parseSourceMap at h
  cases htbl : instructionIndexTable sourceCodes srcMap sources with
  | error msg => rw [htbl] at h; cases h
  | ok tbl =>
    rw [htbl] at h
    cases h
    simp [List.map_map, Function.comp]

theorem output_keys_match_pc_mapping_witness :
    ([((3 : Nat), (none : Option SourceRange))].map Prod.fst) =
      ([((3 : Nat), (0 : Nat))].map Prod.fst) :=
  output_keys_match_pc_mapping [] "" [(3, 0)] [] [(3, none)] rfl

/-- C4 counterexample: the raw field `"12x"` is not a well-formed base-10
integer, yet delta resolution does not treat it as absent: it parses to
`12` via the leading digits instead of inheriting the previous entry's
offset `10`, refuting the claim that every malformed field inherits. -/
theorem malformed_field_not_inherited_cex :
    jsParseInt "12x".data ≠ none ∧
    (resolveEntry { offset := some 10, length := some 5, fileIndex := some 0 }
      "12x:::".data).offset = some 12 ∧
    (resolveEntry { offset := some 10, length := some 5, fileIndex := some 0 }
      "12x:::".data).offset ≠ some 10 := by decide

/-- C4 (amended): a raw field on which JS `parseInt` fails — empty, or
without any leading digits after optional whitespace and sign — is treated
exactly as an absent field and inherits the previous resolved entry's
value, with no error; a field on which `parseInt` succeeds (even one with
trailing garbage, such as `"12x"`) contributes its parsed value instead. -/
theorem parse_failure_inherits_field (lastParsedEntry : SourceLocation) (entry : List Char) :
    (jsParseIntField (splitOnSep ':' entry)[0]? = none →
      (resolveEntry lastParsedEntry entry).offset = lastParsedEntry.offset) ∧
    (∀ v : Int, jsParseIntField (splitOnSep ':' entry)[0]? = some v →
      (resolveEntry lastParsedEntry entry).offset = some v) ∧
    (jsParseIntField (splitOnSep ':' entry)[1]? = none →
      (resolveEntry lastParsedEntry entry).length = lastParsedEntry.length) ∧
    (∀ v : Int, jsParseIntField (splitOnSep ':' entry)[1]? = some v →
      (resolveEntry lastParsedEntry entry).length = some v) ∧
    (jsParseIntField (splitOnSep ':' entry)[2]? = none →
      (resolveEntry lastParsedEntry entry).fileIndex = lastParsedEntry.fileIndex) ∧
    (∀ v : Int, jsParseIntField (splitOnSep ':' entry)[2]? = some v →
      (resolveEntry lastParsedEntry entry).fileIndex = some v) := by
  refine ⟨fun h => ?_, fun v h => ?_, fun h => ?_, fun v h => ?_, fun h => ?_, fun v h => ?_⟩ <;>
    (dsimp only [resolveEntry]; rw [h]; rfl)

theorem parse_failure_inherits_field_witness :
    (resolveEntry { offset := some 1, length := some 2, fileIndex := some 3 }
      "xx:7:".data).offset = some 1 :=
  (parse_failure_inherits_field
    { offset := some 1, length := some 2, fileIndex := some 3 } "xx:7:".data).1 (by decide)

/-- C5 counterexample: the source map `":5:0"` has a first entry whose
start-offset field is absent; with a source supplied for file 0 the decode
does not treat the entry as unmapped but crashes with the range error,
refuting the claim that absent first-entry fields never make the decode
fail. -/
theorem first_entry_unset_offset_crashes_cex :
    parseSourceMap [(0, some "abcdef")] ":5:0" [(0, 0)] [(0, "a.sol")] =
      .error "Error while processing sourcemap: location out of range in a.sol" := rfl

/-- C5 (amended): if the first entry's file-index field is among the absent
ones (so its resolved file index is unset), the decode does not crash on
account of the absent fields: the entry is silently unmapped, contributes
no instruction-index key, and its partially unset resolution propagates
forward as the predecessor of the next entry.  (If instead the file index
resolves to an indexed file while offset or length is unset, the decode
fails with the range error, as the counterexample shows.) -/
theorem first_entry_unset_file_index_skipped (tables : List (Int × LocationByOffset))
    (sources : List (Int × String)) (e : List Char) (rest : List (List Char))
    (h : (resolveEntry initialEntry e).fileIndex = none) :
    processEntries tables sources (e :: rest) 0 initialEntry =
      processEntries tables sources rest 1 (resolveEntry initialEntry e) ∧
    (∀ tbl, processEntries tables sources (e :: rest) 0 initialEntry = .ok tbl →
      0 ∉ tbl.map Prod.fst) := by
  have heq : processEntries tables sources (e :: rest) 0 initialEntry =
      processEntries tables sources rest 1 (resolveEntry initialEntry e) := by
    simp only [processEntries]
    rw [if_neg (by simp [h])]
    rw [show tableFor tables (resolveEntry initialEntry e).fileIndex = none by
      rw [h]; rfl]
  refine ⟨heq, fun tbl htbl hk => ?_⟩
  rw [heq] at htbl
  have := keys_ge_of_processEntries_ok tables sources rest 1 _ tbl htbl 0 hk
  omega

theorem first_entry_unset_file_index_skipped_witness :
    processEntries (buildOffsetTables [(0, some "abc")]) [(0, "a.sol")]
        [":5:".data, "1:2:0".data] 0 initialEntry =
      processEntries (buildOffsetTables [(0, some "abc")]) [(0, "a.sol")]
        ["1:2:0".data] 1 (resolveEntry initialEntry ":5:".data) :=
  (first_entry_unset_file_index_skipped _ _ _ _ (by decide)).1

/-- C6: the entry string `"10:5:0:-;;20:3:1:-"` delta-resolves to exactly
the three entries `{10,5,0}`, `{10,5,0}` (fully inherited) and `{20,3,1}`,
in order. -/
theorem delta_resolution_example :
    resolvedSeq (splitOnSep ';' "10:5:0:-;;20:3:1:-".data) initialEntry =
      [{ offset := some 10, length := some 5, fileIndex := some 0 },
       { offset := some 10, length := some 5, fileIndex := some 0 },
       { offset := some 20, length := some 3, fileIndex := some 1 }] := by decide

/-- C7: for every source text, the offset table's keys are exactly the
contiguous offsets `0..=len` — `len+1` keys in order — and key `0` holds
`{line := 1, column := 0}`. -/
theorem offset_table_keys_exact (T : String) :
    (getLocationByOffset T).map Prod.fst = List.range (T.length + 1) ∧
    (getLocationByOffset T).length = T.length + 1 ∧
    lookupOffset (getLocationByOffset T) 0 = some { line := 1, column := 0 } := by
  have hlen : T.length = T.data.length := rfl
  refine ⟨?_, ?_, ?_⟩
  · rw [hlen, List.range_eq_range']
    simp only [getLocationByOffset, List.map_cons, getLocationByOffsetAux_keys]
    rw [List.range'_succ]
  · have h2 := congrArg List.length
      (getLocationByOffsetAux_keys T.data 0 { line := 1, column := 0 })
    rw [List.length_map, List.length_range'] at h2
    show (getLocationByOffsetAux T.data 0 { line := 1, column := 0 }).length + 1 = T.length + 1
    rw [h2, hlen]
  · simp [getLocationByOffset, lookupOffset]

/-- C8: inserting a newline at position `p` of `T` bumps the recorded line
by one at every table offset `o > p` of `T` (read at the shifted offset
`o + 1` of the new text), and the position recorded immediately after the
inserted newline, at offset `p + 1`, has column `0`. -/
theorem newline_insertion_shifts_lines (T : String) (p : Nat) (hp : p ≤ T.length) :
    (∀ o : Nat, p < o → o ≤ T.length →
      ∃ a b : LineColumn,
        lookupOffset (getLocationByOffset T) o = some a ∧
        lookupOffset (getLocationByOffset (insertCharAt T p '\n')) (o + 1) = some b ∧
        b.line = a.line + 1) ∧
    (∃ b : LineColumn,
      lookupOffset (getLocationByOffset (insertCharAt T p '\n')) (p + 1) = some b ∧
      b.column = 0) := by
  have hlen : T.length = T.data.length := rfl
  rw [hlen] at hp
  have hdata : (insertCharAt T p '\n').data = T.data.take p ++ '\n' :: T.data.drop p := rfl
  have hA : (T.data.take p).length = p := by rw [List.length_take]; omega
  have hlen' : (insertCharAt T p '\n').data.length = T.data.length + 1 := by
    rw [hdata]
    simp only [List.length_append, List.length_cons, List.length_drop, hA]
    omega
  constructor
  · intro o ho1 ho2
    rw [hlen] at ho2
    refine ⟨scanPos (T.data.take o),
      scanPos ((insertCharAt T p '\n').data.take (o + 1)), ?_, ?_, ?_⟩
    · exact lookupOffset_getLocationByOffset T o ho2
    · exact lookupOffset_getLocationByOffset _ (o + 1) (by omega)
    · have htake1 : T.data.take o = T.data.take p ++ (T.data.drop p).take (o - p) := by
        conv_lhs => rw [← List.take_append_drop p T.data]
        rw [List.take_append_eq_append_take, hA,
          List.take_of_length_le (by rw [hA]; omega)]
      have htake2 : (insertCharAt T p '\n').data.take (o + 1) =
          T.data.take p ++ '\n' :: (T.data.drop p).take (o - p) := by
        rw [hdata, List.take_append_eq_append_take, hA,
          List.take_of_length_le (by rw [hA]; omega)]
        rw [show o + 1 - p = (o - p) + 1 by omega, List.take_succ_cons]
      rw [htake1, htake2]
      simp only [scanPos, List.foldl_append, foldl_scanStep_line, List.count_cons,
        beq_self_eq_true, if_true]
      omega
  · refine ⟨scanPos ((insertCharAt T p '\n').data.take (p + 1)), ?_, ?_⟩
    · exact lookupOffset_getLocationByOffset _ (p + 1) (by omega)
    · have htake : (insertCharAt T p '\n').data.take (p + 1) = T.data.take p ++ ['\n'] := by
        rw [hdata, List.take_append_eq_append_take, hA,
          List.take_of_length_le (by rw [hA]; omega)]
        rw [show p + 1 - p = 1 by omega]
        simp
      rw [htake]
      exact foldl_scanStep_newline_column _ _

theorem newline_insertion_shifts_lines_witness :
    ((∀ o : Nat, 1 < o → o ≤ "ab".length →
      ∃ a b : LineColumn,
        lookupOffset (getLocationByOffset "ab") o = some a ∧
        lookupOffset (getLocationByOffset (insertCharAt "ab" 1 '\n')) (o + 1) = some b ∧
        b.line = a.line + 1) ∧
    (∃ b : LineColumn,
      lookupOffset (getLocationByOffset (insertCharAt "ab" 1 '\n')) (1 + 1) = some b ∧
      b.column = 0)) :=
  newline_insertion_shifts_lines "ab" 1 (by decide)

/-- C9: two source-map strings whose entries agree on the three numeric
fields — differing at most in the fourth, jump-type, field — decode to
identical results for every same remaining input: the jump-type field has
no influence on `parseSourceMap`'s output. -/
theorem jump_type_has_no_influence (sourceCodes : List (Int × Option String))
    (srcMap1 srcMap2 : String) (pcs : List (Nat × Nat)) (sources : List (Int × String))
    (h : sameNumericFields (splitOnSep ';' srcMap1.data) (splitOnSep ';' srcMap2.data) = true) :
    parseSourceMap sourceCodes srcMap1 pcs sources =
      parseSourceMap sourceCodes srcMap2 pcs sources := by
  unfold parseSourceMap instructionIndexTable
  rw [processEntries_congr (buildOffsetTables sourceCodes) sources
    (splitOnSep ';' srcMap1.data) (splitOnSep ';' srcMap2.data) 0 initialEntry h]

theorem jump_type_has_no_influence_witness :
    parseSourceMap [(0, some "abc")] "0:3:0:-;1:1:0:i" [(0, 0)] [(0, "C.sol")] =
      parseSourceMap [(0, some "abc")] "0:3:0:o;1:1:0:-" [(0, 0)] [(0, "C.sol")] :=
  jump_type_has_no_influence [(0, some "abc")] "0:3:0:-;1:1:0:i" "0:3:0:o;1:1:0:-"
    [(0, 0)] [(0, "C.sol")] (by decide)

/-- C10: a file index present in `sourceCodes` with an `undefined` value
gets the empty offset table, so a resolved entry referencing it (with any
offset) satisfies the fatal condition and makes the decode fail with the
range error naming that file — whereas when the key is absent entirely the
same entry is silently unmapped. -/
theorem undefined_source_value_fatal (sourceCodes : List (Int × Option String))
    (srcMap : String) (sources : List (Int × String)) (fi : Int) (pe : SourceLocation)
    (hk : lookupTable sourceCodes fi = some none)
    (hfi : pe.fileIndex = some fi)
    (hne : fi ≠ -1) :
    isBad (buildOffsetTables sourceCodes) pe = true ∧
    (pe ∈ resolvedSeq (splitOnSep ';' srcMap.data) initialEntry →
      ∃ msg, instructionIndexTable sourceCodes srcMap sources = .error msg) ∧
    (firstBad (buildOffsetTables sourceCodes) (splitOnSep ';' srcMap.data) initialEntry =
        some pe →
      instructionIndexTable sourceCodes srcMap sources =
        .error (rangeErrorMessage sources pe)) ∧
    (∀ name, lookupTable sources fi = some name →
      rangeErrorMessage sources pe =
        "Error while processing sourcemap: location out of range in " ++ name) ∧
    (∀ sourceCodes2 : List (Int × Option String), lookupTable sourceCodes2 fi = none →
      isUnmapped (buildOffsetTables sourceCodes2) pe = true) := by
  have htab : tableFor (buildOffsetTables sourceCodes) pe.fileIndex = some [] := by
    rw [hfi]
    show lookupTable (buildOffsetTables sourceCodes) fi = some []
    rw [lookupTable_buildOffsetTables, hk]
    rfl
  have hbad : isBad (buildOffsetTables sourceCodes) pe = true := by
    unfold isBad
    rw [htab]
    simp only [Bool.and_eq_true, decide_eq_true_eq, hfi, ne_eq, Option.some.injEq]
    refine ⟨hne, ?_⟩
    cases pe.offset <;> simp [lookupOffsetKey, lookupOffset]
  refine ⟨hbad, ?_, ?_, ?_, ?_⟩
  · intro hmem
    obtain ⟨pe', hfb, _, _⟩ := firstBad_isSome_of_mem_bad (buildOffsetTables sourceCodes)
      (splitOnSep ';' srcMap.data) initialEntry pe hmem hbad
    exact ⟨_, processEntries_error_of_firstBad _ _ _ _ _ 0 hfb⟩
  · intro hfb
    exact processEntries_error_of_firstBad _ _ _ _ _ 0 hfb
  · intro name hname
    simp [rangeErrorMessage, fileNameFor, hfi, hname, showFileName]
  · intro sourceCodes2 h2
    have htab2 : tableFor (buildOffsetTables sourceCodes2) pe.fileIndex = none := by
      rw [hfi]
      show lookupTable (buildOffsetTables sourceCodes2) fi = none
      rw [lookupTable_buildOffsetTables, h2]
      rfl
    unfold isUnmapped
    rw [htab2]
    simp

theorem undefined_source_value_fatal_witness :
    isBad (buildOffsetTables [(0, none)])
      { offset := some 0, length := some 1, fileIndex := some 0 } = true ∧
    ({ offset := some 0, length := some 1, fileIndex := some 0 } ∈
        resolvedSeq (splitOnSep ';' "0:1:0".data) initialEntry →
      ∃ msg, instructionIndexTable [(0, none)] "0:1:0" [(0, "x.sol")] = .error msg) ∧
    (firstBad (buildOffsetTables [(0, none)]) (splitOnSep ';' "0:1:0".data) initialEntry =
        some { offset := some 0, length := some 1, fileIndex := some 0 } →
      instructionIndexTable [(0, none)] "0:1:0" [(0, "x.sol")] =
        .error (rangeErrorMessage [(0, "x.sol")]
          { offset := some 0, length := some 1, fileIndex := some 0 })) ∧
    (∀ name, lookupTable [((0 : Int), "x.sol")] 0 = some name →
      rangeErrorMessage [(0, "x.sol")]
          { offset := some 0, length := some 1, fileIndex := some 0 } =
        "Error while processing sourcemap: location out of range in " ++ name) ∧
    (∀ sourceCodes2 : List (Int × Option String), lookupTable sourceCodes2 0 = none →
      isUnmapped (buildOffsetTables sourceCodes2)
        { offset := some 0, length := some 1, fileIndex := some 0 } = true) :=
  undefined_source_value_fatal [(0, none)] "0:1:0" [(0, "x.sol")] 0
    { offset := some 0, length := some 1, fileIndex := some 0 } (by decide) rfl (by decide)
